import Mathlib

/-!
# DirectXFramework: the input state buffer (`SourceFiles/Input.cpp`)

A shallow embedding of class `Input` and a verification of its documented
behaviour.

* The key tables `keys_down_` and `keys_pressed_` are C arrays of
  `inputns::kKeysArrayLength` booleans. They are embedded as functions on
  `Fin kKeysArrayLength`; an access through an index that is not below the
  length has no defined behaviour in C++ and is embedded as a fault (`none`).
* `WPARAM`/`LPARAM` values are natural numbers (their unsigned bit pattern);
  narrowing to `UCHAR` or `char` is `% 256`, written explicitly.
* The platform call `GetKeyState` is a parameter of the two functions that
  call it, and the record read by `GetRawInputData` is a parameter of
  `FillMouseRawPosition`.
* The constants of namespace `inputns` live in `Base/Input.h`, which is not
  part of the sources at hand; they are a parameter (`inputns`) of the whole
  development.
-/

namespace DirectXFramework

/-! ## Platform types and constants (Windows headers) -/

/-- An unsigned 8-bit value (`UCHAR`); also used for the bit pattern of a `char`. -/
abbrev UCHAR := Fin 256

/-- Narrowing conversion of an integer to `UCHAR` / `char`: `(UCHAR)w`, `(char)w`. -/
def toUCHAR (w : Nat) : UCHAR := ⟨w % 256, Nat.mod_lt w (by decide)⟩

def VK_SHIFT : Nat := 0x10
def VK_CONTROL : Nat := 0x11
def VK_LSHIFT : Nat := 0xA0
def VK_RSHIFT : Nat := 0xA1
def VK_LCONTROL : Nat := 0xA2
def VK_RCONTROL : Nat := 0xA3
def MK_XBUTTON1 : Nat := 0x20
def MK_XBUTTON2 : Nat := 0x40
/-- The character `'\b'`. -/
def BACKSPACE : UCHAR := 8

/-- The character `'\r'`. -/
def CARRIAGE_RETURN : UCHAR := 13

/-- Conversion `(int)(short)w` of a 16-bit word. -/
def toShort (w : Nat) : Int := if w % 65536 < 32768 then (w % 65536 : Nat) else (w % 65536 : Nat) - 65536

/-- Windows macro `GET_X_LPARAM(lp) = (int)(short)LOWORD(lp)`. -/
def GET_X_LPARAM (lparam : Nat) : Int := toShort (lparam % 65536)

/-- Windows macro `GET_Y_LPARAM(lp) = (int)(short)HIWORD(lp)`. -/
def GET_Y_LPARAM (lparam : Nat) : Int := toShort ((lparam / 65536) % 65536)

/-- The constants of namespace `inputns` used by `Input.cpp`. Their declarations
(`Base/Input.h`) are not among the sources, so they are a parameter. -/
structure inputns where
  kKeysArrayLength : Nat
  kKeysDown : Nat
  kKeysPressed : Nat
  kMouse : Nat
  kTextIn : Nat
  kKeysMouseText : Nat

/-- Modelled from the spec: the values of the `inputns` constants declared in the
absent `Base/Input.h`. The table length is the platform key-code space (256
virtual-key codes), the buffer categories are one bit each of a bit mask, and
`kKeysMouseText` names every category. Used for concrete evaluations only. -/
def inputns.standard : inputns := ⟨256, 1, 2, 4, 8, 15⟩

/-! ## The state of an `Input` object -/

/-- The data members of class `Input`. -/
structure Input (ns : inputns) where
  keys_down_ : Fin ns.kKeysArrayLength → Bool
  keys_pressed_ : Fin ns.kKeysArrayLength → Bool
  text_in_ : List UCHAR
  char_in_ : UCHAR
  new_line_ : Bool
  mouse_x_ : Int
  mouse_y_ : Int
  mouse_raw_x_ : Int
  mouse_raw_y_ : Int
  mouse_captured_ : Bool
  mouse_left_button_ : Bool
  mouse_middle_button_ : Bool
  mouse_right_button_ : Bool
  mouse_x1_button_ : Bool
  mouse_x2_button_ : Bool
  state_change_ : Bool

variable {ns : inputns}

/-- The table `tbl` with slot `i` overwritten by `v`. -/
def updSlot {n : Nat} (tbl : Fin n → Bool) (i : Nat) (v : Bool) : Fin n → Bool :=
  fun j => if j.val = i then v else tbl j

/-- Array write `tbl[i] = v`: a fault when `i` is not below the array length. -/
def writeSlot {n : Nat} (tbl : Fin n → Bool) (i : Nat) (v : Bool) : Option (Fin n → Bool) :=
  if i < n then some (updSlot tbl i v) else none

/-- Array read `tbl[i]`: a fault when `i` is not below the array length. -/
def readSlot {n : Nat} (tbl : Fin n → Bool) (i : Nat) : Option Bool :=
  if h : i < n then some (tbl ⟨i, h⟩) else none

/-- Statement `keys_down_[i] = v`. -/
def setDown (s : Input ns) (i : Nat) (v : Bool) : Option (Input ns) :=
  (writeSlot s.keys_down_ i v).map (fun t => { s with keys_down_ := t })

/-- Statement `keys_pressed_[i] = v`. -/
def setPressed (s : Input ns) (i : Nat) (v : Bool) : Option (Input ns) :=
  (writeSlot s.keys_pressed_ i v).map (fun t => { s with keys_pressed_ := t })

/-! ## The member functions -/

/-- Function `ValidKeyCode(UCHAR vkey)`: `vkey < inputns::kKeysArrayLength`. -/
def ValidKeyCode (ns : inputns) (vkey : UCHAR) : Bool :=
  decide (vkey.val < ns.kKeysArrayLength)

/-- Constructor `Input::Input()`. It does not assign `mouse_captured_`, whose
value is therefore taken as an argument. -/
def newInput (ns : inputns) (mouse_captured_ : Bool) : Input ns where
  keys_down_ := fun _ => false
  keys_pressed_ := fun _ => false
  new_line_ := true
  text_in_ := []
  char_in_ := 0
  mouse_x_ := 0
  mouse_y_ := 0
  mouse_raw_x_ := 0
  mouse_raw_y_ := 0
  mouse_captured_ := mouse_captured_
  mouse_left_button_ := false
  mouse_middle_button_ := false
  mouse_right_button_ := false
  mouse_x1_button_ := false
  mouse_x2_button_ := false
  state_change_ := false

/-- Member `Input::SetKeyDown(WPARAM wparam)`. `GetKeyState` is the platform
query of the physical key state (the bit pattern of the `SHORT` it returns, of
which the code tests bit 7); the validity test receives the code narrowed to
`UCHAR`, the tables are indexed by `wparam` itself. -/
def SetKeyDown (GetKeyState : Nat → Nat) (wparam : Nat) (s : Input ns) : Option (Input ns) :=
  if ValidKeyCode ns (toUCHAR wparam) then do
    let s : Input ns := { s with state_change_ := true }
    let s ← setDown s wparam true
    let s ← setPressed s wparam true
    if wparam = VK_SHIFT then do
      let s ← if GetKeyState VK_LSHIFT &&& 128 ≠ 0 then setDown s VK_LSHIFT true else pure s
      let s ← if GetKeyState VK_RSHIFT &&& 128 ≠ 0 then setDown s VK_RSHIFT true else pure s
      pure s
    else if wparam = VK_CONTROL then do
      let s ← if GetKeyState VK_LCONTROL &&& 128 ≠ 0 then setDown s VK_LCONTROL true else pure s
      let s ← if GetKeyState VK_RCONTROL &&& 128 ≠ 0 then setDown s VK_RCONTROL true else pure s
      pure s
    else pure s
  else pure s

/-- Member `Input::SetKeyUp(WPARAM wparam)`. -/
def SetKeyUp (GetKeyState : Nat → Nat) (wparam : Nat) (s : Input ns) : Option (Input ns) :=
  if ValidKeyCode ns (toUCHAR wparam) then do
    let s : Input ns := { s with state_change_ := true }
    let s ← setDown s wparam false
    if wparam = VK_SHIFT then do
      let s ← if GetKeyState VK_LSHIFT &&& 128 = 0 then setDown s VK_LSHIFT false else pure s
      let s ← if GetKeyState VK_RSHIFT &&& 128 = 0 then setDown s VK_RSHIFT false else pure s
      pure s
    else if wparam = VK_CONTROL then do
      let s ← if GetKeyState VK_LCONTROL &&& 128 = 0 then setDown s VK_LCONTROL false else pure s
      let s ← if GetKeyState VK_RCONTROL &&& 128 = 0 then setDown s VK_RCONTROL false else pure s
      -- only release main control if both sides are released
      let l ← readSlot s.keys_down_ VK_LCONTROL
      let either ← if l then pure true else readSlot s.keys_down_ VK_RCONTROL
      setDown s wparam (if either then true else false)
    else pure s
  else pure s

/-- Member `Input::SetKeyIn(WPARAM wparam)`. -/
def SetKeyIn (wparam : Nat) (s : Input ns) : Input ns :=
  -- if start of new line
  let s : Input ns := if s.new_line_ then { s with text_in_ := [], new_line_ := false } else s
  let s : Input ns :=
    if toUCHAR wparam = BACKSPACE then
      if s.text_in_.length > 0 then
        -- `erase(size() - 1)` removes everything from that position on
        { s with text_in_ := s.text_in_.take (s.text_in_.length - 1) }
      else s
    else
      { s with text_in_ := s.text_in_ ++ [toUCHAR wparam], char_in_ := toUCHAR wparam }
  if toUCHAR wparam = CARRIAGE_RETURN then { s with new_line_ := true } else s

/-- Member `Input::KeyIsDown(UCHAR vkey)`. -/
def KeyIsDown (vkey : UCHAR) (s : Input ns) : Bool :=
  if h : ValidKeyCode ns vkey = true then s.keys_down_ ⟨vkey.val, of_decide_eq_true h⟩ else false

/-- Member `Input::KeyWasPressed(UCHAR vkey)`. -/
def KeyWasPressed (vkey : UCHAR) (s : Input ns) : Bool :=
  if h : ValidKeyCode ns vkey = true then s.keys_pressed_ ⟨vkey.val, of_decide_eq_true h⟩ else false

/-- Member `Input::AnyKeyWasPressed()`: the first true slot ends the loop. -/
def AnyKeyWasPressed (s : Input ns) : Bool :=
  (List.finRange ns.kKeysArrayLength).any (fun i => s.keys_pressed_ i)

/-- Member `Input::SetKeyPressedFalse(UCHAR vkey)`. -/
def SetKeyPressedFalse (vkey : UCHAR) (s : Input ns) : Input ns :=
  if ValidKeyCode ns vkey then { s with keys_pressed_ := updSlot s.keys_pressed_ vkey.val false } else s

/-- Member `Input::ClearTextIn()`. -/
def ClearTextIn (s : Input ns) : Input ns :=
  { s with text_in_ := [] }

/-- Member `Input::ClearBuffer(UCHAR buffers)`. -/
def ClearBuffer (buffers : UCHAR) (s : Input ns) : Input ns :=
  let s : Input ns :=
    if buffers.val &&& ns.kKeysDown ≠ 0 then { s with keys_down_ := fun _ => false } else s
  let s : Input ns :=
    if buffers.val &&& ns.kKeysPressed ≠ 0 then { s with keys_pressed_ := fun _ => false } else s
  let s : Input ns :=
    if buffers.val &&& ns.kMouse ≠ 0 then
      { s with mouse_x_ := 0, mouse_y_ := 0, mouse_raw_x_ := 0, mouse_raw_y_ := 0 }
    else s
  if buffers.val &&& ns.kTextIn ≠ 0 then ClearTextIn s else s

/-- Member `Input::ClearAll()`. -/
def ClearAll (s : Input ns) : Input ns :=
  ClearBuffer (toUCHAR ns.kKeysMouseText) s

/-- Member `Input::GetTextIN()`. -/
def GetTextIN (s : Input ns) : List UCHAR := s.text_in_

/-- Member `Input::GetCharIn()`. -/
def GetCharIn (s : Input ns) : UCHAR := s.char_in_

/-- Member `Input::FillMousePosition(LPARAM lparam)`. -/
def FillMousePosition (lparam : Nat) (s : Input ns) : Input ns :=
  { s with mouse_x_ := GET_X_LPARAM lparam, mouse_y_ := GET_Y_LPARAM lparam }

/-- Member `Input::SetMouseLeftButton(bool flag)`. -/
def SetMouseLeftButton (flag : Bool) (s : Input ns) : Input ns :=
  { s with mouse_left_button_ := flag }

/-- Member `Input::SetMouseMiddleButton(bool flag)`. -/
def SetMouseMiddleButton (flag : Bool) (s : Input ns) : Input ns :=
  { s with mouse_middle_button_ := flag }

/-- Member `Input::SetMouseRightButton(bool flag)`. -/
def SetMouseRightButton (flag : Bool) (s : Input ns) : Input ns :=
  { s with mouse_right_button_ := flag }

/-- Member `Input::SetMouseXButton(WPARAM wparam)`. -/
def SetMouseXButton (wparam : Nat) (s : Input ns) : Input ns :=
  { s with
    mouse_x1_button_ := if wparam &&& MK_XBUTTON1 ≠ 0 then true else false,
    mouse_x2_button_ := if wparam &&& MK_XBUTTON2 ≠ 0 then true else false }

def GetMouseX (s : Input ns) : Int := s.mouse_x_
def GetMouseY (s : Input ns) : Int := s.mouse_y_
def GetMouseRawX (s : Input ns) : Int := s.mouse_raw_x_
def GetMouseRawY (s : Input ns) : Int := s.mouse_raw_y_
def GetMouseLeftButton (s : Input ns) : Bool := s.mouse_left_button_
def GetMouseMiddleButton (s : Input ns) : Bool := s.mouse_middle_button_
def GetMouseRightButton (s : Input ns) : Bool := s.mouse_right_button_
def GetMouseX1Button (s : Input ns) : Bool := s.mouse_x1_button_
def GetMouseX2Button (s : Input ns) : Bool := s.mouse_x2_button_

/-- Member `Input::StateChanged()`. -/
def StateChanged (s : Input ns) : Bool := s.state_change_

/-- Member `Input::EndFrame()`. -/
def EndFrame (s : Input ns) : Input ns :=
  { ClearBuffer (toUCHAR ns.kKeysPressed) s with state_change_ := false }

/-- Feeding the characters of `cs` to `SetKeyIn`, one call per character, in order. -/
def typeText (cs : List UCHAR) (s : Input ns) : Input ns :=
  cs.foldl (fun st c => SetKeyIn c.val st) s

/-- Bit 7 of the value returned by the platform query is set: the key is held. -/
def held (GetKeyState : Nat → Nat) (vk : Nat) : Bool :=
  decide (GetKeyState vk &&& 128 ≠ 0)

/-- Slot `i` of `tbl`, for an index known to be inside the table (`false` otherwise). -/
def slotAt {n : Nat} (tbl : Fin n → Bool) (i : Nat) : Bool :=
  if h : i < n then tbl ⟨i, h⟩ else false

/-- The down table that `SetKeyDown` leaves when all its writes are inside the table. -/
def downAfterKeyDown {n : Nat} (GetKeyState : Nat → Nat) (k : Nat) (tbl : Fin n → Bool) :
    Fin n → Bool :=
  let t := updSlot tbl k true
  if k = VK_SHIFT then
    let t := if GetKeyState VK_LSHIFT &&& 128 ≠ 0 then updSlot t VK_LSHIFT true else t
    if GetKeyState VK_RSHIFT &&& 128 ≠ 0 then updSlot t VK_RSHIFT true else t
  else if k = VK_CONTROL then
    let t := if GetKeyState VK_LCONTROL &&& 128 ≠ 0 then updSlot t VK_LCONTROL true else t
    if GetKeyState VK_RCONTROL &&& 128 ≠ 0 then updSlot t VK_RCONTROL true else t
  else t

/-- The down table that `SetKeyUp` leaves when all its accesses are inside the table. -/
def downAfterKeyUp {n : Nat} (GetKeyState : Nat → Nat) (k : Nat) (tbl : Fin n → Bool) :
    Fin n → Bool :=
  let t := updSlot tbl k false
  if k = VK_SHIFT then
    let t := if GetKeyState VK_LSHIFT &&& 128 = 0 then updSlot t VK_LSHIFT false else t
    if GetKeyState VK_RSHIFT &&& 128 = 0 then updSlot t VK_RSHIFT false else t
  else if k = VK_CONTROL then
    let t := if GetKeyState VK_LCONTROL &&& 128 = 0 then updSlot t VK_LCONTROL false else t
    let t := if GetKeyState VK_RCONTROL &&& 128 = 0 then updSlot t VK_RCONTROL false else t
    updSlot t k (slotAt t VK_LCONTROL || slotAt t VK_RCONTROL)
  else t

/-- A platform key state in which the left control key, and no other key, is held
(`GetKeyState` answers `0xFF80` for a held key). -/
def onlyLeftControlHeld : Nat → Nat :=
  fun vk => if vk = VK_LCONTROL then 0xFF80 else 0

/-- A platform key state in which no key is held. -/
def nothingHeld : Nat → Nat := fun _ => 0

/-- The state in which `SetKeyDown(65)` (the key `A`) leaves a newly constructed
object: slot 65 of both tables and the change flag are set. -/
def afterKeyA : Input inputns.standard :=
  { newInput inputns.standard false with
    state_change_ := true
    keys_down_ := updSlot (fun _ => false) 65 true
    keys_pressed_ := updSlot (fun _ => false) 65 true }

/-- The state after `a`, `b` have been typed into `afterKeyA` and the mouse has moved
to window position (3, 5): every buffer category holds something. -/
def busyState : Input inputns.standard :=
  FillMousePosition (5 * 65536 + 3) (typeText [97, 98] afterKeyA)

/-- The state in which `SetKeyDown(VK_CONTROL)` leaves a newly constructed object
when the platform reports left control held: the generic and the left-control
slot are down. -/
def afterLeftControl : Input inputns.standard :=
  { newInput inputns.standard false with
    state_change_ := true
    keys_down_ := updSlot (updSlot (fun _ => false) VK_CONTROL true) VK_LCONTROL true
    keys_pressed_ := updSlot (fun _ => false) VK_CONTROL true }

/-- The state in which `SetKeyDown(0)` leaves a newly constructed object: slot 0 of
both tables and the change flag are set. -/
def afterKeyZero : Input inputns.standard :=
  { newInput inputns.standard false with
    state_change_ := true
    keys_down_ := updSlot (fun _ => false) 0 true
    keys_pressed_ := updSlot (fun _ => false) 0 true }

/-- A platform key state in which the left shift key, and no other key, is held. -/
def onlyLeftShiftHeld : Nat → Nat :=
  fun vk => if vk = VK_LSHIFT then 0xFF80 else 0

/-- Constants with a key table of 200 slots, shorter than the range of a `UCHAR`
code: used to evaluate the bounds check of the queries on a code that fails it. -/
def inputns.shortTable : inputns := ⟨200, 1, 2, 4, 8, 15⟩

/-! ## Basic facts about the embedding -/

theorem ValidKeyCode_iff (ns : inputns) (vkey : UCHAR) :
    ValidKeyCode ns vkey = true ↔ vkey.val < ns.kKeysArrayLength := by
  simp [ValidKeyCode]

theorem toUCHAR_val (w : Nat) : (toUCHAR w).val = w % 256 := rfl

theorem toUCHAR_self (k : UCHAR) : toUCHAR k.val = k := by
  apply Fin.ext
  simp [toUCHAR, Nat.mod_eq_of_lt k.isLt]

theorem updSlot_same {n : Nat} (tbl : Fin n → Bool) (i : Nat) (v : Bool) (j : Fin n)
    (h : j.val = i) : updSlot tbl i v j = v := by
  simp [updSlot, h]

theorem updSlot_other {n : Nat} (tbl : Fin n → Bool) (i : Nat) (v : Bool) (j : Fin n)
    (h : j.val ≠ i) : updSlot tbl i v j = tbl j := by
  simp [updSlot, h]

theorem setDown_of_lt (s : Input ns) (i : Nat) (v : Bool) (h : i < ns.kKeysArrayLength) :
    setDown s i v = some { s with keys_down_ := updSlot s.keys_down_ i v } := by
  simp [setDown, writeSlot, h]

theorem setDown_of_not_lt (s : Input ns) (i : Nat) (v : Bool) (h : ¬ i < ns.kKeysArrayLength) :
    setDown s i v = none := by
  simp [setDown, writeSlot, h]

theorem setPressed_of_lt (s : Input ns) (i : Nat) (v : Bool) (h : i < ns.kKeysArrayLength) :
    setPressed s i v = some { s with keys_pressed_ := updSlot s.keys_pressed_ i v } := by
  simp [setPressed, writeSlot, h]

theorem readSlot_of_lt {n : Nat} (tbl : Fin n → Bool) (i : Nat) (h : i < n) :
    readSlot tbl i = some (tbl ⟨i, h⟩) := by
  simp [readSlot, h]

/-- A code that fails the validity test is ignored by `SetKeyDown`. -/
theorem SetKeyDown_of_invalid (GetKeyState : Nat → Nat) (wparam : Nat) (s : Input ns)
    (h : ValidKeyCode ns (toUCHAR wparam) = false) : SetKeyDown GetKeyState wparam s = some s := by
  simp [SetKeyDown, h]

/-- A code that fails the validity test is ignored by `SetKeyUp`. -/
theorem SetKeyUp_of_invalid (GetKeyState : Nat → Nat) (wparam : Nat) (s : Input ns)
    (h : ValidKeyCode ns (toUCHAR wparam) = false) : SetKeyUp GetKeyState wparam s = some s := by
  simp [SetKeyUp, h]

theorem valid_of_lt (k : Nat) (hk : k < ns.kKeysArrayLength) :
    ValidKeyCode ns (toUCHAR k) = true := by
  have : k % 256 ≤ k := Nat.mod_le k 256
  simp only [ValidKeyCode, toUCHAR, decide_eq_true_eq]
  omega

/-- Inside the tables `SetKeyDown` does not fault, and its effect is: change flag
set, slot `k` of the pressed table set, down table as computed by `downAfterKeyDown`. -/
theorem SetKeyDown_eq (GetKeyState : Nat → Nat) (k : Nat) (s : Input ns)
    (hk : k < ns.kKeysArrayLength) (hL : VK_RCONTROL < ns.kKeysArrayLength) :
    SetKeyDown GetKeyState k s =
      some { s with
        state_change_ := true,
        keys_down_ := downAfterKeyDown GetKeyState k s.keys_down_,
        keys_pressed_ := updSlot s.keys_pressed_ k true } := by
  have h0 : VK_LSHIFT < ns.kKeysArrayLength := by simp [VK_LSHIFT, VK_RCONTROL] at *; omega
  have h1 : VK_RSHIFT < ns.kKeysArrayLength := by simp [VK_RSHIFT, VK_RCONTROL] at *; omega
  have h2 : VK_LCONTROL < ns.kKeysArrayLength := by simp [VK_LCONTROL, VK_RCONTROL] at *; omega
  simp only [SetKeyDown, valid_of_lt k hk, if_true, downAfterKeyDown]
  by_cases hs : k = VK_SHIFT
  · subst hs
    by_cases a : GetKeyState VK_LSHIFT &&& 128 = 0 <;>
    by_cases b : GetKeyState VK_RSHIFT &&& 128 = 0 <;>
    simp [a, b, setDown_of_lt, setPressed_of_lt, hk, h0, h1]
  · by_cases hc : k = VK_CONTROL
    · subst hc
      by_cases a : GetKeyState VK_LCONTROL &&& 128 = 0 <;>
      by_cases b : GetKeyState VK_RCONTROL &&& 128 = 0 <;>
      simp [a, b, hs, setDown_of_lt, setPressed_of_lt, hk, h2, hL]
    · simp [hs, hc, setDown_of_lt, setPressed_of_lt, hk]

/-- Inside the tables `SetKeyUp` does not fault, and its effect is: change flag
set, down table as computed by `downAfterKeyUp`, everything else untouched. -/
theorem SetKeyUp_eq (GetKeyState : Nat → Nat) (k : Nat) (s : Input ns)
    (hk : k < ns.kKeysArrayLength) (hL : VK_RCONTROL < ns.kKeysArrayLength) :
    SetKeyUp GetKeyState k s =
      some { s with
        state_change_ := true,
        keys_down_ := downAfterKeyUp GetKeyState k s.keys_down_ } := by
  have h0 : VK_LSHIFT < ns.kKeysArrayLength := by simp [VK_LSHIFT, VK_RCONTROL] at *; omega
  have h1 : VK_RSHIFT < ns.kKeysArrayLength := by simp [VK_RSHIFT, VK_RCONTROL] at *; omega
  have h2 : VK_LCONTROL < ns.kKeysArrayLength := by simp [VK_LCONTROL, VK_RCONTROL] at *; omega
  simp only [SetKeyUp, valid_of_lt k hk, if_true, downAfterKeyUp]
  by_cases hs : k = VK_SHIFT
  · subst hs
    by_cases a : GetKeyState VK_LSHIFT &&& 128 = 0 <;>
    by_cases b : GetKeyState VK_RSHIFT &&& 128 = 0 <;>
    simp [a, b, setDown_of_lt, hk, h0, h1]
  · by_cases hc : k = VK_CONTROL
    · subst hc
      by_cases a : GetKeyState VK_LCONTROL &&& 128 = 0 <;>
      by_cases b : GetKeyState VK_RCONTROL &&& 128 = 0 <;>
      simp [a, b, hs, setDown_of_lt, readSlot_of_lt, slotAt, hk, h2, hL] <;>
      split <;> simp_all
    · simp [hs, hc, setDown_of_lt, hk]

/-- A code that passes the validity test but is not below the table length makes
`SetKeyDown` write outside `keys_down_`. -/
theorem SetKeyDown_fault (GetKeyState : Nat → Nat) (c : Nat) (s : Input ns)
    (hv : ValidKeyCode ns (toUCHAR c) = true) (hc : ¬ c < ns.kKeysArrayLength) :
    SetKeyDown GetKeyState c s = none := by
  simp [SetKeyDown, hv, setDown_of_not_lt _ c _ hc]

/-- A code that passes the validity test but is not below the table length makes
`SetKeyUp` write outside `keys_down_`. -/
theorem SetKeyUp_fault (GetKeyState : Nat → Nat) (c : Nat) (s : Input ns)
    (hv : ValidKeyCode ns (toUCHAR c) = true) (hc : ¬ c < ns.kKeysArrayLength) :
    SetKeyUp GetKeyState c s = none := by
  simp [SetKeyUp, hv, setDown_of_not_lt _ c _ hc]

theorem afterKeyA_eq :
    SetKeyDown nothingHeld 65 (newInput inputns.standard false) = some afterKeyA := by
  rfl

/-! ## C1: codes outside the key tables -/

/-- C1 (the code departs from the claim). A code `c` that is not below the table
length but whose low byte is below it passes `ValidKeyCode`, which sees only the
low byte; `SetKeyDown(c)` and `SetKeyUp(c)` then set the change flag and write
`keys_down_[c]` outside the table. Neither call is the no-op the claim describes:
both end in the out-of-bounds fault. -/
theorem C1_out_of_range_code_is_written (ns : inputns) (GetKeyState : Nat → Nat) (c : Nat)
    (s : Input ns) (hc : ns.kKeysArrayLength ≤ c) (hv : c % 256 < ns.kKeysArrayLength) :
    ValidKeyCode ns (toUCHAR c) = true ∧
      SetKeyDown GetKeyState c s = none ∧ SetKeyUp GetKeyState c s = none := by
  have hvalid : ValidKeyCode ns (toUCHAR c) = true := by
    simp [ValidKeyCode, toUCHAR, hv]
  have hnot : ¬ c < ns.kKeysArrayLength := Nat.not_lt.mpr hc
  exact ⟨hvalid, SetKeyDown_fault GetKeyState c s hvalid hnot,
    SetKeyUp_fault GetKeyState c s hvalid hnot⟩

/-- C1, evaluated: with a table of 256 slots the code 256 is accepted and written
out of bounds, by both `SetKeyDown` and `SetKeyUp`, on a newly constructed object. -/
theorem C1_out_of_range_code_is_written_witness :
    inputns.standard.kKeysArrayLength ≤ 256 ∧ 256 % 256 < inputns.standard.kKeysArrayLength ∧
      ValidKeyCode inputns.standard (toUCHAR 256) = true ∧
      SetKeyDown (fun _ => 0) 256 (newInput inputns.standard false) = none ∧
      SetKeyUp (fun _ => 0) 256 (newInput inputns.standard false) = none :=
  ⟨by decide, by decide,
    C1_out_of_range_code_is_written inputns.standard (fun _ => 0) 256
      (newInput inputns.standard false) (by decide) (by decide)⟩

/-! ## C2, C3: key-up and key-down followed by a query -/

/-- Slot `k` of the down table after `SetKeyUp(k)`, for a code other than the
generic control code. -/
theorem downAfterKeyUp_self {n : Nat} (GetKeyState : Nat → Nat) (k : Nat) (tbl : Fin n → Bool)
    (h : k < n) (hc : k ≠ VK_CONTROL) : downAfterKeyUp GetKeyState k tbl ⟨k, h⟩ = false := by
  unfold downAfterKeyUp
  by_cases hs : k = VK_SHIFT
  · subst hs
    simp only [if_true]
    split <;> split <;> simp [updSlot, VK_SHIFT, VK_LSHIFT, VK_RSHIFT]
  · simp [hs, hc, updSlot]

/-- Slot `VK_CONTROL` of the down table after `SetKeyUp(VK_CONTROL)`. -/
theorem downAfterKeyUp_control {n : Nat} (GetKeyState : Nat → Nat) (tbl : Fin n → Bool)
    (h : VK_CONTROL < n) (hl : VK_LCONTROL < n) (hr : VK_RCONTROL < n) :
    downAfterKeyUp GetKeyState VK_CONTROL tbl ⟨VK_CONTROL, h⟩ =
      ((tbl ⟨VK_LCONTROL, hl⟩ && held GetKeyState VK_LCONTROL) ||
        (tbl ⟨VK_RCONTROL, hr⟩ && held GetKeyState VK_RCONTROL)) := by
  unfold downAfterKeyUp
  have hl2 : 162 < n := hl
  have hr2 : 163 < n := hr
  simp only [VK_CONTROL, VK_SHIFT, VK_LCONTROL, VK_RCONTROL] at *
  by_cases a : GetKeyState 162 &&& 128 = 0 <;>
  by_cases b : GetKeyState 163 &&& 128 = 0 <;>
  simp [a, b, updSlot, slotAt, held, hl2, hr2]

/-- C2, the claim as stated fails: press the generic control code while the
platform reports left control held, then release the generic control code while
left control is still reported held. `KeyIsDown(VK_CONTROL)` is true afterwards. -/
theorem C2_generic_control_stays_down :
    ValidKeyCode inputns.standard (toUCHAR VK_CONTROL) = true ∧
      ((SetKeyDown onlyLeftControlHeld VK_CONTROL (newInput inputns.standard false)).bind
        (SetKeyUp onlyLeftControlHeld VK_CONTROL)).map (KeyIsDown (toUCHAR VK_CONTROL))
        = some true := by
  decide

/-- C2 (amended). For every valid key code `k`, every prior state and every
platform key state, `SetKeyUp(k)` completes; afterwards `KeyIsDown(k)` is false
when `k` is not the generic control code (the generic shift code included), and
for the generic control code it is true exactly when the left-control slot was
down and the platform reports left control held, or the same for right control. -/
theorem C2_SetKeyUp_then_KeyIsDown (ns : inputns) (GetKeyState : Nat → Nat) (k : UCHAR)
    (s : Input ns) (hk : ValidKeyCode ns k = true) (hL : VK_RCONTROL < ns.kKeysArrayLength) :
    ∃ s', SetKeyUp GetKeyState k.val s = some s' ∧
      (k.val ≠ VK_CONTROL → KeyIsDown k s' = false) ∧
      (k.val = VK_CONTROL → KeyIsDown k s' =
        ((KeyIsDown (toUCHAR VK_LCONTROL) s && held GetKeyState VK_LCONTROL) ||
          (KeyIsDown (toUCHAR VK_RCONTROL) s && held GetKeyState VK_RCONTROL))) := by
  have hk' : k.val < ns.kKeysArrayLength := (ValidKeyCode_iff ns k).mp hk
  have hl : VK_LCONTROL < ns.kKeysArrayLength := by simp [VK_LCONTROL, VK_RCONTROL] at *; omega
  have hvl : ValidKeyCode ns (toUCHAR VK_LCONTROL) = true := valid_of_lt _ hl
  have hvr : ValidKeyCode ns (toUCHAR VK_RCONTROL) = true := valid_of_lt _ hL
  refine ⟨_, SetKeyUp_eq GetKeyState k.val s hk' hL, ?_, ?_⟩
  · intro hc
    simp [KeyIsDown, hk, downAfterKeyUp_self GetKeyState k.val s.keys_down_ hk' hc]
  · intro hc
    have hk2 : VK_CONTROL < ns.kKeysArrayLength := hc ▸ hk'
    have e := downAfterKeyUp_control GetKeyState s.keys_down_ hk2 hl hL
    simp only [KeyIsDown, hk, hvl, hvr, dite_true]
    simp only [hc, e]
    rfl

/-- C2 (amended), at a concrete input: the key `A` (code 65) is down and is
released with no key held. -/
theorem C2_SetKeyUp_then_KeyIsDown_witness :
    ValidKeyCode inputns.standard 65 = true ∧
      VK_RCONTROL < inputns.standard.kKeysArrayLength ∧
      KeyIsDown 65 afterKeyA = true ∧
      ∃ s', SetKeyUp nothingHeld (65 : UCHAR).val afterKeyA = some s' ∧
        ((65 : UCHAR).val ≠ VK_CONTROL → KeyIsDown 65 s' = false) ∧
        ((65 : UCHAR).val = VK_CONTROL → KeyIsDown 65 s' =
          ((KeyIsDown (toUCHAR VK_LCONTROL) afterKeyA && held nothingHeld VK_LCONTROL) ||
            (KeyIsDown (toUCHAR VK_RCONTROL) afterKeyA && held nothingHeld VK_RCONTROL))) :=
  ⟨by decide, by decide, by decide,
    C2_SetKeyUp_then_KeyIsDown inputns.standard nothingHeld 65 afterKeyA (by decide) (by decide)⟩

/-- Slot `k` of the down table after `SetKeyDown(k)`. -/
theorem downAfterKeyDown_self {n : Nat} (GetKeyState : Nat → Nat) (k : Nat) (tbl : Fin n → Bool)
    (h : k < n) : downAfterKeyDown GetKeyState k tbl ⟨k, h⟩ = true := by
  unfold downAfterKeyDown
  by_cases hs : k = VK_SHIFT
  · subst hs
    simp only [if_true]
    split <;> split <;> simp [updSlot, VK_SHIFT, VK_LSHIFT, VK_RSHIFT]
  · by_cases hc : k = VK_CONTROL
    · subst hc
      simp only [hs, if_false, if_true]
      split <;> split <;> simp [updSlot, VK_CONTROL, VK_LCONTROL, VK_RCONTROL]
    · simp [hs, hc, updSlot]

/-- C3. For every valid key code `k`, every prior state and every platform key
state, `SetKeyDown(k)` completes and afterwards both `KeyIsDown(k)` and
`KeyWasPressed(k)` return true. -/
theorem C3_SetKeyDown_then_queries (ns : inputns) (GetKeyState : Nat → Nat) (k : UCHAR)
    (s : Input ns) (hk : ValidKeyCode ns k = true) (hL : VK_RCONTROL < ns.kKeysArrayLength) :
    ∃ s', SetKeyDown GetKeyState k.val s = some s' ∧
      KeyIsDown k s' = true ∧ KeyWasPressed k s' = true := by
  have hk' : k.val < ns.kKeysArrayLength := (ValidKeyCode_iff ns k).mp hk
  refine ⟨_, SetKeyDown_eq GetKeyState k.val s hk' hL, ?_, ?_⟩
  · simp [KeyIsDown, hk, downAfterKeyDown_self GetKeyState k.val s.keys_down_ hk']
  · simp [KeyWasPressed, hk, updSlot]

/-- C3 at a concrete input: pressing the generic shift code while the platform
reports nothing held, on a newly constructed object. -/
theorem C3_SetKeyDown_then_queries_witness :
    ValidKeyCode inputns.standard 16 = true ∧
      VK_RCONTROL < inputns.standard.kKeysArrayLength ∧
      ∃ s', SetKeyDown nothingHeld (16 : UCHAR).val (newInput inputns.standard false) = some s' ∧
        KeyIsDown 16 s' = true ∧ KeyWasPressed 16 s' = true :=
  ⟨by decide, by decide,
    C3_SetKeyDown_then_queries inputns.standard nothingHeld 16
      (newInput inputns.standard false) (by decide) (by decide)⟩

/-! ## C4: key-up leaves the pressed table alone -/

/-- Whenever `SetKeyUp` completes, whatever the code, the pressed table is the one
it started with. -/
theorem SetKeyUp_keys_pressed (GetKeyState : Nat → Nat) (c : Nat) (s s' : Input ns)
    (hL : VK_RCONTROL < ns.kKeysArrayLength)
    (h : SetKeyUp GetKeyState c s = some s') : s'.keys_pressed_ = s.keys_pressed_ := by
  by_cases hc : c < ns.kKeysArrayLength
  · rw [SetKeyUp_eq GetKeyState c s hc hL] at h
    cases h
    rfl
  · cases hv : ValidKeyCode ns (toUCHAR c)
    · rw [SetKeyUp_of_invalid GetKeyState c s hv] at h
      cases h
      rfl
    · rw [SetKeyUp_fault GetKeyState c s hv hc] at h
      cases h

theorem afterKeyZero_eq :
    SetKeyDown nothingHeld 0 (newInput inputns.standard false) = some afterKeyZero := by
  rfl

/-- C4 (the code departs from the claim for codes outside the table). For every
state, every code `c` and every platform key state, `SetKeyUp(c)` does one of
three things. A code below the table length: the call completes and every slot
of the pressed table has its value from before. A code rejected by
`ValidKeyCode`: the call changes nothing. A code not below the table length
whose low byte passes `ValidKeyCode`: the call stores `false` at `keys_down_[c]`,
outside the down table, so nothing keeps the pressed table as it was. For a
valid `k`, `SetKeyDown(k)` followed by `SetKeyUp(k)` leaves `KeyWasPressed(k)`
true. -/
theorem C4_SetKeyUp_pressed_table (ns : inputns) (GetKeyState : Nat → Nat) (c : Nat)
    (s : Input ns) (hL : VK_RCONTROL < ns.kKeysArrayLength) :
    (c < ns.kKeysArrayLength →
        ∃ s', SetKeyUp GetKeyState c s = some s' ∧ ∀ j, s'.keys_pressed_ j = s.keys_pressed_ j) ∧
      (ValidKeyCode ns (toUCHAR c) = false → SetKeyUp GetKeyState c s = some s) ∧
      (¬ c < ns.kKeysArrayLength → ValidKeyCode ns (toUCHAR c) = true →
        SetKeyUp GetKeyState c s = none) ∧
      (∀ (k : UCHAR) (GetKeyState2 : Nat → Nat), ValidKeyCode ns k = true →
        ∃ s1 s2, SetKeyDown GetKeyState k.val s = some s1 ∧
          SetKeyUp GetKeyState2 k.val s1 = some s2 ∧ KeyWasPressed k s2 = true) := by
  refine ⟨?_, ?_, ?_, ?_⟩
  · intro hc
    exact ⟨_, SetKeyUp_eq GetKeyState c s hc hL, fun _ => rfl⟩
  · intro hv
    exact SetKeyUp_of_invalid GetKeyState c s hv
  · intro hc hv
    exact SetKeyUp_fault GetKeyState c s hv hc
  · intro k g2 hk
    have hk' : k.val < ns.kKeysArrayLength := (ValidKeyCode_iff ns k).mp hk
    refine ⟨_, _, SetKeyDown_eq GetKeyState k.val s hk' hL, SetKeyUp_eq g2 k.val _ hk' hL, ?_⟩
    simp [KeyWasPressed, hk, updSlot]

/-- C4 at the failing input: key 0 was pressed in this frame, so slot 0 of the
pressed table is set; `SetKeyUp(256)` passes the validity test on its low byte 0
and stores outside the 256-slot down table. -/
theorem C4_SetKeyUp_pressed_table_witness :
    VK_RCONTROL < inputns.standard.kKeysArrayLength ∧
      KeyWasPressed 0 afterKeyZero = true ∧
      ¬ 256 < inputns.standard.kKeysArrayLength ∧
      ValidKeyCode inputns.standard (toUCHAR 256) = true ∧
      SetKeyUp nothingHeld 256 afterKeyZero = none :=
  ⟨by decide, by decide, by decide, by decide,
    (C4_SetKeyUp_pressed_table inputns.standard nothingHeld 256 afterKeyZero (by decide)).2.2.1
      (by decide) (by decide)⟩

/-! ## C5: the frame boundary -/

theorem ClearBuffer_keys_pressed (buffers : UCHAR) (s : Input ns) :
    (ClearBuffer buffers s).keys_pressed_ =
      if buffers.val &&& ns.kKeysPressed ≠ 0 then (fun _ => false) else s.keys_pressed_ := by
  unfold ClearBuffer ClearTextIn
  split_ifs <;> rfl

theorem ClearBuffer_keys_down (buffers : UCHAR) (s : Input ns) :
    (ClearBuffer buffers s).keys_down_ =
      if buffers.val &&& ns.kKeysDown ≠ 0 then (fun _ => false) else s.keys_down_ := by
  unfold ClearBuffer ClearTextIn
  split_ifs <;> rfl

theorem ClearBuffer_text_in (buffers : UCHAR) (s : Input ns) :
    (ClearBuffer buffers s).text_in_ =
      if buffers.val &&& ns.kTextIn ≠ 0 then [] else s.text_in_ := by
  unfold ClearBuffer ClearTextIn
  split_ifs <;> rfl

theorem ClearBuffer_mouse (buffers : UCHAR) (s : Input ns) :
    ((ClearBuffer buffers s).mouse_x_, (ClearBuffer buffers s).mouse_y_,
        (ClearBuffer buffers s).mouse_raw_x_, (ClearBuffer buffers s).mouse_raw_y_) =
      if buffers.val &&& ns.kMouse ≠ 0 then (0, 0, 0, 0)
      else (s.mouse_x_, s.mouse_y_, s.mouse_raw_x_, s.mouse_raw_y_) := by
  unfold ClearBuffer ClearTextIn
  split_ifs <;> rfl

theorem ClearBuffer_rest (buffers : UCHAR) (s : Input ns) :
    (ClearBuffer buffers s).mouse_left_button_ = s.mouse_left_button_ ∧
      (ClearBuffer buffers s).mouse_middle_button_ = s.mouse_middle_button_ ∧
      (ClearBuffer buffers s).mouse_right_button_ = s.mouse_right_button_ ∧
      (ClearBuffer buffers s).mouse_x1_button_ = s.mouse_x1_button_ ∧
      (ClearBuffer buffers s).mouse_x2_button_ = s.mouse_x2_button_ ∧
      (ClearBuffer buffers s).state_change_ = s.state_change_ ∧
      (ClearBuffer buffers s).char_in_ = s.char_in_ ∧
      (ClearBuffer buffers s).new_line_ = s.new_line_ ∧
      (ClearBuffer buffers s).mouse_captured_ = s.mouse_captured_ := by
  unfold ClearBuffer ClearTextIn
  split_ifs <;> exact ⟨rfl, rfl, rfl, rfl, rfl, rfl, rfl, rfl, rfl⟩

/-- A mask constant that is a non-zero `UCHAR` value selects its own category when
it is passed to `ClearBuffer`. -/
theorem own_bit (m : Nat) (h0 : m ≠ 0) (h1 : m < 256) : (toUCHAR m).val &&& m ≠ 0 := by
  rw [toUCHAR_val, Nat.mod_eq_of_lt h1, Nat.and_self]
  exact h0

/-- C5. For every prior state, after `EndFrame()` the query `AnyKeyWasPressed()`
returns false, `KeyWasPressed(k)` is false for every `k`, and `StateChanged()`
returns false. (The pressed-category constant `kKeysPressed` is a non-zero `UCHAR`
mask.) -/
theorem C5_EndFrame_clears_pressed_and_flag (ns : inputns) (s : Input ns)
    (h0 : ns.kKeysPressed ≠ 0) (h1 : ns.kKeysPressed < 256) :
    AnyKeyWasPressed (EndFrame s) = false ∧
      (∀ k : UCHAR, KeyWasPressed k (EndFrame s) = false) ∧
      StateChanged (EndFrame s) = false := by
  have hp : (EndFrame s).keys_pressed_ = fun _ => false := by
    show (ClearBuffer (toUCHAR ns.kKeysPressed) s).keys_pressed_ = _
    rw [ClearBuffer_keys_pressed, if_pos (own_bit _ h0 h1)]
  refine ⟨?_, ?_, rfl⟩
  · simp [AnyKeyWasPressed, hp]
  · intro k
    simp [KeyWasPressed, hp]

/-- C5 at a concrete input: a frame in which the key `A` was pressed. -/
theorem C5_EndFrame_clears_pressed_and_flag_witness :
    inputns.standard.kKeysPressed ≠ 0 ∧ inputns.standard.kKeysPressed < 256 ∧
      AnyKeyWasPressed (EndFrame afterKeyA) = false ∧
      (∀ k : UCHAR,
        KeyWasPressed k (EndFrame afterKeyA) = false) ∧
      StateChanged (EndFrame afterKeyA) = false :=
  ⟨by decide, by decide,
    C5_EndFrame_clears_pressed_and_flag inputns.standard
      afterKeyA (by decide) (by decide)⟩

/-! ## C6, C7, C8: text entry -/

/-- The effect of `SetKeyIn` for a character that is neither backspace nor
carriage return, away from a line start: the character is appended and recorded. -/
theorem SetKeyIn_ordinary (c : UCHAR) (s : Input ns) (hb : c ≠ BACKSPACE)
    (hr : c ≠ CARRIAGE_RETURN) (hn : s.new_line_ = false) :
    SetKeyIn c.val s = { s with text_in_ := s.text_in_ ++ [c], char_in_ := c } := by
  simp [SetKeyIn, toUCHAR_self, hb, hr, hn]

/-- The effect of `SetKeyIn` for such a character at a line start: the text is
cleared first. -/
theorem SetKeyIn_ordinary_fresh (c : UCHAR) (s : Input ns) (hb : c ≠ BACKSPACE)
    (hr : c ≠ CARRIAGE_RETURN) (hn : s.new_line_ = true) :
    SetKeyIn c.val s = { s with text_in_ := [c], char_in_ := c, new_line_ := false } := by
  simp [SetKeyIn, toUCHAR_self, hb, hr, hn]

/-- Typing ordinary characters away from a line start appends them. -/
theorem typeText_ordinary (cs : List UCHAR) (s : Input ns) (hb : BACKSPACE ∉ cs)
    (hr : CARRIAGE_RETURN ∉ cs) (hn : s.new_line_ = false) :
    (typeText cs s).text_in_ = s.text_in_ ++ cs ∧
      (typeText cs s).new_line_ = false ∧
      (typeText cs s).char_in_ = cs.getLastD s.char_in_ := by
  induction cs generalizing s with
  | nil => exact ⟨(List.append_nil _).symm, hn, rfl⟩
  | cons c rest ih =>
    have hcb : c ≠ BACKSPACE := fun e => hb (by simp [e])
    have hcr : c ≠ CARRIAGE_RETURN := fun e => hr (by simp [e])
    have hb2 : BACKSPACE ∉ rest := fun m => hb (List.mem_cons_of_mem _ m)
    have hr2 : CARRIAGE_RETURN ∉ rest := fun m => hr (List.mem_cons_of_mem _ m)
    have step : typeText (c :: rest) s = typeText rest (SetKeyIn c.val s) := rfl
    rw [step, SetKeyIn_ordinary c s hcb hcr hn]
    obtain ⟨h1, h2, h3⟩ := ih { s with text_in_ := s.text_in_ ++ [c], char_in_ := c } hb2 hr2 hn
    refine ⟨?_, h2, ?_⟩
    · rw [h1]
      exact List.append_assoc _ _ _
    · rw [h3, List.getLastD_cons]

/-- Typing ordinary characters from a line start: the old text is dropped. -/
theorem typeText_fresh (c : UCHAR) (rest : List UCHAR) (s : Input ns)
    (hb : BACKSPACE ∉ c :: rest) (hr : CARRIAGE_RETURN ∉ c :: rest) (hn : s.new_line_ = true) :
    (typeText (c :: rest) s).text_in_ = c :: rest ∧
      (typeText (c :: rest) s).new_line_ = false ∧
      (typeText (c :: rest) s).char_in_ = (c :: rest).getLast (List.cons_ne_nil c rest) := by
  have hcb : c ≠ BACKSPACE := fun e => hb (by simp [e])
  have hcr : c ≠ CARRIAGE_RETURN := fun e => hr (by simp [e])
  have hb2 : BACKSPACE ∉ rest := fun m => hb (List.mem_cons_of_mem _ m)
  have hr2 : CARRIAGE_RETURN ∉ rest := fun m => hr (List.mem_cons_of_mem _ m)
  have step : typeText (c :: rest) s = typeText rest (SetKeyIn c.val s) := rfl
  rw [step, SetKeyIn_ordinary_fresh c s hcb hcr hn]
  obtain ⟨h1, h2, h3⟩ :=
    typeText_ordinary rest { s with text_in_ := [c], char_in_ := c, new_line_ := false } hb2 hr2 rfl
  refine ⟨?_, h2, ?_⟩
  · rw [h1]
    rfl
  · rw [h3, List.getLast_eq_getLastD]

/-- The text after a backspace, away from a line start: the last character goes,
and an empty text stays empty. -/
theorem SetKeyIn_backspace (s : Input ns) (hn : s.new_line_ = false) :
    (SetKeyIn BACKSPACE.val s).text_in_ = s.text_in_.dropLast := by
  have e : toUCHAR BACKSPACE.val = BACKSPACE := toUCHAR_self _
  have ne : BACKSPACE ≠ CARRIAGE_RETURN := by decide
  simp only [SetKeyIn, e, hn, ne, if_true, if_false, Bool.false_eq_true]
  split
  · simp [List.dropLast_eq_take]
  · rename_i h
    have : s.text_in_ = [] := by
      cases ht : s.text_in_ with
      | nil => rfl
      | cons a l => simp [ht] at h
    simp [this]

/-- A backspace leaves an empty text empty, at a line start or away from it. -/
theorem SetKeyIn_backspace_empty (t : Input ns) (h : t.text_in_ = []) :
    (SetKeyIn BACKSPACE.val t).text_in_ = [] := by
  have e : toUCHAR BACKSPACE.val = BACKSPACE := toUCHAR_self _
  have ne : BACKSPACE ≠ CARRIAGE_RETURN := by decide
  cases hn : t.new_line_ <;> simp [SetKeyIn, e, hn, ne, h]

/-- C6. Text entry accumulates and backspaces. Start at a line start (new-line
flag set, as after construction) and feed `SetKeyIn` the characters of a string
`cs` without backspace or carriage return, `cs` non-empty or the text empty at the
start (as after construction). Then `GetTextIN()` is `cs`, `GetCharIn()` is the
last character of `cs`, a following backspace gives `cs` without its last
character, and a backspace on any state with empty text leaves the text empty. -/
theorem C6_text_entry (ns : inputns) (s : Input ns) (cs : List UCHAR)
    (hfresh : s.new_line_ = true) (hb : BACKSPACE ∉ cs) (hr : CARRIAGE_RETURN ∉ cs)
    (hstart : cs ≠ [] ∨ s.text_in_ = []) :
    GetTextIN (typeText cs s) = cs ∧
      (∀ hne : cs ≠ [], GetCharIn (typeText cs s) = cs.getLast hne) ∧
      GetTextIN (SetKeyIn BACKSPACE.val (typeText cs s)) = cs.dropLast ∧
      (∀ t : Input ns, GetTextIN t = [] → GetTextIN (SetKeyIn BACKSPACE.val t) = []) := by
  refine ⟨?_, ?_, ?_, fun t ht => SetKeyIn_backspace_empty t ht⟩
  · cases cs with
    | nil =>
      rcases hstart with h | h
      · exact absurd rfl h
      · exact h
    | cons c rest => exact (typeText_fresh c rest s hb hr hfresh).1
  · intro hne
    cases cs with
    | nil => exact absurd rfl hne
    | cons c rest => exact (typeText_fresh c rest s hb hr hfresh).2.2
  · cases cs with
    | nil =>
      rcases hstart with h | h
      · exact absurd rfl h
      · exact SetKeyIn_backspace_empty s h
    | cons c rest =>
      obtain ⟨h1, h2, _⟩ := typeText_fresh c rest s hb hr hfresh
      show (SetKeyIn BACKSPACE.val (typeText (c :: rest) s)).text_in_ = _
      rw [SetKeyIn_backspace _ h2, h1]

/-- C6 at the spec's example: typing `"abc"` into a newly constructed object gives
the text `"abc"` with last character `c`, and a backspace then gives `"ab"`. -/
theorem C6_text_entry_witness :
    (newInput inputns.standard false).new_line_ = true ∧
      BACKSPACE ∉ ([97, 98, 99] : List UCHAR) ∧ CARRIAGE_RETURN ∉ ([97, 98, 99] : List UCHAR) ∧
      (([97, 98, 99] : List UCHAR) ≠ [] ∨ (newInput inputns.standard false).text_in_ = []) ∧
      GetTextIN (typeText [97, 98, 99] (newInput inputns.standard false)) = [97, 98, 99] ∧
      (∀ hne : ([97, 98, 99] : List UCHAR) ≠ [],
        GetCharIn (typeText [97, 98, 99] (newInput inputns.standard false)) =
          ([97, 98, 99] : List UCHAR).getLast hne) ∧
      GetTextIN (SetKeyIn BACKSPACE.val (typeText [97, 98, 99] (newInput inputns.standard false)))
        = [97, 98] ∧
      (∀ t : Input inputns.standard,
        GetTextIN t = [] → GetTextIN (SetKeyIn BACKSPACE.val t) = []) :=
  ⟨rfl, by decide, by decide, Or.inl (by decide),
    C6_text_entry inputns.standard (newInput inputns.standard false) [97, 98, 99] rfl
      (by decide) (by decide) (Or.inl (by decide))⟩

/-- C7, the claim as stated fails: after `a` has been typed into a newly
constructed object the state is not at a line start and the text is `"a"`; a
carriage return then makes the text `"a\r"` and the last character `'\r'`. -/
theorem C7_carriage_return_is_appended :
    (SetKeyIn 97 (newInput inputns.standard false)).new_line_ = false ∧
      GetTextIN (SetKeyIn 97 (newInput inputns.standard false)) = [97] ∧
      GetTextIN (SetKeyIn 13 (SetKeyIn 97 (newInput inputns.standard false))) = [97, 13] ∧
      GetCharIn (SetKeyIn 13 (SetKeyIn 97 (newInput inputns.standard false))) = 13 ∧
      GetTextIN (SetKeyIn 13 (SetKeyIn 97 (newInput inputns.standard false))) ≠
        GetTextIN (SetKeyIn 97 (newInput inputns.standard false)) := by
  decide

/-- C7 (amended). For every state that is not at a line start, `SetKeyIn` of a
carriage return sets the new-line flag and keeps everything accumulated so far,
with the carriage return appended to the text and recorded as the last
character: carriage return is one of the characters that are appended. -/
theorem C7_SetKeyIn_carriage_return (ns : inputns) (s : Input ns) (cr : Nat)
    (hcr : toUCHAR cr = CARRIAGE_RETURN) (hn : s.new_line_ = false) :
    (SetKeyIn cr s).new_line_ = true ∧
      GetTextIN (SetKeyIn cr s) = GetTextIN s ++ [CARRIAGE_RETURN] ∧
      GetCharIn (SetKeyIn cr s) = CARRIAGE_RETURN := by
  have ne : CARRIAGE_RETURN ≠ BACKSPACE := by decide
  simp [SetKeyIn, GetTextIN, GetCharIn, hcr, hn, ne]

/-- C7 (amended) at a concrete input: a carriage return after `a`. -/
theorem C7_SetKeyIn_carriage_return_witness :
    toUCHAR 13 = CARRIAGE_RETURN ∧
      (SetKeyIn 97 (newInput inputns.standard false)).new_line_ = false ∧
      (SetKeyIn 13 (SetKeyIn 97 (newInput inputns.standard false))).new_line_ = true ∧
      GetTextIN (SetKeyIn 13 (SetKeyIn 97 (newInput inputns.standard false))) =
        GetTextIN (SetKeyIn 97 (newInput inputns.standard false)) ++ [CARRIAGE_RETURN] ∧
      GetCharIn (SetKeyIn 13 (SetKeyIn 97 (newInput inputns.standard false))) = CARRIAGE_RETURN :=
  ⟨by decide, by decide,
    C7_SetKeyIn_carriage_return inputns.standard (SetKeyIn 97 (newInput inputns.standard false)) 13
      (by decide) (by decide)⟩

/-- C8. A carriage return makes the next character start a fresh accumulation:
for every state and every character `c` that is neither backspace nor carriage
return, after `SetKeyIn` of a carriage return followed by `SetKeyIn(c)` the text
is exactly the one-character string `c` (and the state is no longer at a line
start). -/
theorem C8_next_character_starts_fresh (ns : inputns) (s : Input ns) (cr c : Nat)
    (hcr : toUCHAR cr = CARRIAGE_RETURN) (hb : toUCHAR c ≠ BACKSPACE)
    (hr : toUCHAR c ≠ CARRIAGE_RETURN) :
    GetTextIN (SetKeyIn c (SetKeyIn cr s)) = [toUCHAR c] ∧
      (SetKeyIn c (SetKeyIn cr s)).new_line_ = false := by
  have hnl : (SetKeyIn cr s).new_line_ = true := by
    simp [SetKeyIn, hcr]
  generalize SetKeyIn cr s = t at hnl
  constructor
  · simp [SetKeyIn, GetTextIN, hb, hr, hnl]
  · simp [SetKeyIn, hb, hr, hnl]

/-- C8 at a concrete input: `"hi"`, carriage return, then `x`. -/
theorem C8_next_character_starts_fresh_witness :
    toUCHAR 13 = CARRIAGE_RETURN ∧ toUCHAR 120 ≠ BACKSPACE ∧ toUCHAR 120 ≠ CARRIAGE_RETURN ∧
      GetTextIN (SetKeyIn 120 (SetKeyIn 13 (typeText [104, 105] (newInput inputns.standard false))))
        = [toUCHAR 120] ∧
      (SetKeyIn 120 (SetKeyIn 13 (typeText [104, 105] (newInput inputns.standard false)))).new_line_
        = false :=
  ⟨by decide, by decide, by decide,
    C8_next_character_starts_fresh inputns.standard
      (typeText [104, 105] (newInput inputns.standard false)) 13 120
      (by decide) (by decide) (by decide)⟩

/-! ## C9: clearing by category -/

/-- C9. `ClearBuffer(mask)` affects only the categories named in the mask: for
every mask and state, each of the down table, the pressed table, the mouse
position with the raw delta, and the text buffer is zeroed or emptied if its
category constant has a bit in common with the mask and is exactly as before
otherwise; mouse button flags, change flag, last character and new-line flag are
never changed. When the mouse constant shares no bit with the other three
category constants, `ClearBuffer(kMouse)` leaves both key tables and the text
untouched. -/
theorem C9_ClearBuffer_by_category (ns : inputns) (buffers : UCHAR) (s : Input ns) :
    ((ClearBuffer buffers s).keys_down_ =
        if buffers.val &&& ns.kKeysDown ≠ 0 then (fun _ => false) else s.keys_down_) ∧
      ((ClearBuffer buffers s).keys_pressed_ =
        if buffers.val &&& ns.kKeysPressed ≠ 0 then (fun _ => false) else s.keys_pressed_) ∧
      ((GetMouseX (ClearBuffer buffers s), GetMouseY (ClearBuffer buffers s),
          GetMouseRawX (ClearBuffer buffers s), GetMouseRawY (ClearBuffer buffers s)) =
        if buffers.val &&& ns.kMouse ≠ 0 then (0, 0, 0, 0)
        else (GetMouseX s, GetMouseY s, GetMouseRawX s, GetMouseRawY s)) ∧
      (GetTextIN (ClearBuffer buffers s) =
        if buffers.val &&& ns.kTextIn ≠ 0 then [] else GetTextIN s) ∧
      (GetMouseLeftButton (ClearBuffer buffers s) = GetMouseLeftButton s ∧
        GetMouseMiddleButton (ClearBuffer buffers s) = GetMouseMiddleButton s ∧
        GetMouseRightButton (ClearBuffer buffers s) = GetMouseRightButton s ∧
        GetMouseX1Button (ClearBuffer buffers s) = GetMouseX1Button s ∧
        GetMouseX2Button (ClearBuffer buffers s) = GetMouseX2Button s ∧
        StateChanged (ClearBuffer buffers s) = StateChanged s ∧
        GetCharIn (ClearBuffer buffers s) = GetCharIn s ∧
        (ClearBuffer buffers s).new_line_ = s.new_line_) ∧
      ((toUCHAR ns.kMouse).val &&& ns.kKeysDown = 0 →
        (toUCHAR ns.kMouse).val &&& ns.kKeysPressed = 0 →
        (toUCHAR ns.kMouse).val &&& ns.kTextIn = 0 →
        (ClearBuffer (toUCHAR ns.kMouse) s).keys_down_ = s.keys_down_ ∧
          (ClearBuffer (toUCHAR ns.kMouse) s).keys_pressed_ = s.keys_pressed_ ∧
          GetTextIN (ClearBuffer (toUCHAR ns.kMouse) s) = GetTextIN s) := by
  obtain ⟨r1, r2, r3, r4, r5, r6, r7, r8, _⟩ := ClearBuffer_rest buffers s
  refine ⟨ClearBuffer_keys_down buffers s, ClearBuffer_keys_pressed buffers s,
    ClearBuffer_mouse buffers s, ClearBuffer_text_in buffers s,
    ⟨r1, r2, r3, r4, r5, r6, r7, r8⟩, ?_⟩
  intro hd hp ht
  refine ⟨?_, ?_, ?_⟩
  · rw [ClearBuffer_keys_down]
    simp [hd]
  · rw [ClearBuffer_keys_pressed]
    simp [hp]
  · show (ClearBuffer (toUCHAR ns.kMouse) s).text_in_ = s.text_in_
    rw [ClearBuffer_text_in]
    simp [ht]

/-- C9 at a concrete input: clearing only the mouse category of a state in which
every category holds something zeroes the mouse position and leaves the key `A`
down and pressed and the text `"ab"` in place. -/
theorem C9_ClearBuffer_by_category_witness :
    (GetMouseX busyState, GetMouseY busyState) = (3, 5) ∧
      (GetMouseX (ClearBuffer (toUCHAR inputns.standard.kMouse) busyState),
        GetMouseY (ClearBuffer (toUCHAR inputns.standard.kMouse) busyState)) = (0, 0) ∧
      KeyIsDown 65 (ClearBuffer (toUCHAR inputns.standard.kMouse) busyState) = true ∧
      KeyWasPressed 65 (ClearBuffer (toUCHAR inputns.standard.kMouse) busyState) = true ∧
      ((ClearBuffer (toUCHAR inputns.standard.kMouse) busyState).keys_down_ = busyState.keys_down_ ∧
        (ClearBuffer (toUCHAR inputns.standard.kMouse) busyState).keys_pressed_
          = busyState.keys_pressed_ ∧
        GetTextIN (ClearBuffer (toUCHAR inputns.standard.kMouse) busyState) = GetTextIN busyState) :=
  ⟨by decide, by decide, by decide, by decide,
    (C9_ClearBuffer_by_category inputns.standard (toUCHAR inputns.standard.kMouse) busyState).2.2.2.2.2
      (by decide) (by decide) (by decide)⟩

/-! ## C10: the change flag -/

/-- C10, the claim as stated fails: on a newly constructed object none of the
mouse mutators sets the change flag; `StateChanged()` still returns false. -/
theorem C10_mouse_setters_leave_flag_clear :
    StateChanged (SetMouseLeftButton true (newInput inputns.standard false)) = false ∧
      StateChanged (SetMouseMiddleButton true (newInput inputns.standard false)) = false ∧
      StateChanged (SetMouseRightButton true (newInput inputns.standard false)) = false ∧
      StateChanged (SetMouseXButton MK_XBUTTON1 (newInput inputns.standard false)) = false ∧
      StateChanged (FillMousePosition (5 * 65536 + 3) (newInput inputns.standard false)) = false ∧
      GetMouseLeftButton (SetMouseLeftButton true (newInput inputns.standard false)) = true := by
  decide

/-- C10 (amended). The change flag is set by every key mutation: for every state
and platform key state, after `SetKeyDown(k)` or `SetKeyUp(k)` with a valid `k`,
`StateChanged()` returns true. The mouse mutators `SetMouseLeftButton`,
`SetMouseMiddleButton`, `SetMouseRightButton`, `SetMouseXButton` and
`FillMousePosition` leave the change flag as it was. -/
theorem C10_change_flag (ns : inputns) (GetKeyState : Nat → Nat) (k : UCHAR) (s : Input ns)
    (hk : ValidKeyCode ns k = true) (hL : VK_RCONTROL < ns.kKeysArrayLength) :
    (∃ s', SetKeyDown GetKeyState k.val s = some s' ∧ StateChanged s' = true) ∧
      (∃ s', SetKeyUp GetKeyState k.val s = some s' ∧ StateChanged s' = true) ∧
      (∀ flag, StateChanged (SetMouseLeftButton flag s) = StateChanged s) ∧
      (∀ flag, StateChanged (SetMouseMiddleButton flag s) = StateChanged s) ∧
      (∀ flag, StateChanged (SetMouseRightButton flag s) = StateChanged s) ∧
      (∀ wparam, StateChanged (SetMouseXButton wparam s) = StateChanged s) ∧
      (∀ lparam, StateChanged (FillMousePosition lparam s) = StateChanged s) := by
  have hk' : k.val < ns.kKeysArrayLength := (ValidKeyCode_iff ns k).mp hk
  exact ⟨⟨_, SetKeyDown_eq GetKeyState k.val s hk' hL, rfl⟩,
    ⟨_, SetKeyUp_eq GetKeyState k.val s hk' hL, rfl⟩,
    fun _ => rfl, fun _ => rfl, fun _ => rfl, fun _ => rfl, fun _ => rfl⟩

/-- C10 (amended) at a concrete input: the key `A` on a newly constructed object. -/
theorem C10_change_flag_witness :
    ValidKeyCode inputns.standard 65 = true ∧
      VK_RCONTROL < inputns.standard.kKeysArrayLength ∧
      (∃ s', SetKeyDown nothingHeld (65 : UCHAR).val (newInput inputns.standard false) = some s' ∧
        StateChanged s' = true) ∧
      (∃ s', SetKeyUp nothingHeld (65 : UCHAR).val (newInput inputns.standard false) = some s' ∧
        StateChanged s' = true) :=
  ⟨by decide, by decide,
    (C10_change_flag inputns.standard nothingHeld 65 (newInput inputns.standard false)
      (by decide) (by decide)).1,
    (C10_change_flag inputns.standard nothingHeld 65 (newInput inputns.standard false)
      (by decide) (by decide)).2.1⟩

/-! ## C11, C12: the generic control and shift codes -/

theorem afterLeftControl_eq :
    SetKeyDown onlyLeftControlHeld VK_CONTROL (newInput inputns.standard false)
      = some afterLeftControl := by
  rfl

/-- C11, the claim as stated fails: on a newly constructed object, whose
left-control slot is not down, `SetKeyUp(VK_CONTROL)` while the platform reports
left control held leaves `KeyIsDown(VK_CONTROL)` false. -/
theorem C11_held_alone_does_not_force_down :
    held onlyLeftControlHeld VK_LCONTROL = true ∧
      (SetKeyUp onlyLeftControlHeld VK_CONTROL (newInput inputns.standard false)).map
        (KeyIsDown (toUCHAR VK_CONTROL)) = some false := by
  decide

/-- C11 (amended). On control release the generic slot is set from the two side
slots of the table: for every prior state and platform key state,
`SetKeyUp(VK_CONTROL)` completes and afterwards `KeyIsDown(VK_CONTROL)` is true
exactly when the left-control slot was down and the platform reports left control
held, or the right-control slot was down and the platform reports right control
held. -/
theorem C11_control_release (ns : inputns) (GetKeyState : Nat → Nat) (s : Input ns)
    (hL : VK_RCONTROL < ns.kKeysArrayLength) :
    ∃ s', SetKeyUp GetKeyState VK_CONTROL s = some s' ∧
      KeyIsDown (toUCHAR VK_CONTROL) s' =
        ((KeyIsDown (toUCHAR VK_LCONTROL) s && held GetKeyState VK_LCONTROL) ||
          (KeyIsDown (toUCHAR VK_RCONTROL) s && held GetKeyState VK_RCONTROL)) := by
  have hl : VK_LCONTROL < ns.kKeysArrayLength := by simp [VK_LCONTROL, VK_RCONTROL] at *; omega
  have hc : VK_CONTROL < ns.kKeysArrayLength := by simp [VK_CONTROL, VK_RCONTROL] at *; omega
  have hvc : ValidKeyCode ns (toUCHAR VK_CONTROL) = true := valid_of_lt _ hc
  have hvl : ValidKeyCode ns (toUCHAR VK_LCONTROL) = true := valid_of_lt _ hl
  have hvr : ValidKeyCode ns (toUCHAR VK_RCONTROL) = true := valid_of_lt _ hL
  refine ⟨_, SetKeyUp_eq GetKeyState VK_CONTROL s hc hL, ?_⟩
  have e := downAfterKeyUp_control GetKeyState s.keys_down_ hc hl hL
  simp only [KeyIsDown, hvc, hvl, hvr, dite_true]
  exact e

/-- C11 (amended) at a concrete input: left control was pressed and is still
reported held when the generic control code is released; the generic slot is
down afterwards. -/
theorem C11_control_release_witness :
    VK_RCONTROL < inputns.standard.kKeysArrayLength ∧
      KeyIsDown (toUCHAR VK_LCONTROL) afterLeftControl = true ∧
      held onlyLeftControlHeld VK_LCONTROL = true ∧
      ∃ s', SetKeyUp onlyLeftControlHeld VK_CONTROL afterLeftControl = some s' ∧
        KeyIsDown (toUCHAR VK_CONTROL) s' =
          ((KeyIsDown (toUCHAR VK_LCONTROL) afterLeftControl &&
              held onlyLeftControlHeld VK_LCONTROL) ||
            (KeyIsDown (toUCHAR VK_RCONTROL) afterLeftControl &&
              held onlyLeftControlHeld VK_RCONTROL)) :=
  ⟨by decide, by decide, by decide,
    C11_control_release inputns.standard onlyLeftControlHeld afterLeftControl (by decide)⟩

/-- The generic shift slot after `SetKeyDown(VK_SHIFT)`, and a side slot whose key
the platform reports held. -/
theorem downAfterKeyDown_shift {n : Nat} (GetKeyState : Nat → Nat) (tbl : Fin n → Bool)
    (hl : VK_LSHIFT < n) (hr : VK_RSHIFT < n) :
    (held GetKeyState VK_LSHIFT = true →
        downAfterKeyDown GetKeyState VK_SHIFT tbl ⟨VK_LSHIFT, hl⟩ = true) ∧
      (held GetKeyState VK_RSHIFT = true →
        downAfterKeyDown GetKeyState VK_SHIFT tbl ⟨VK_RSHIFT, hr⟩ = true) := by
  unfold downAfterKeyDown
  simp only [VK_SHIFT, VK_LSHIFT, VK_RSHIFT, held] at *
  by_cases a : GetKeyState 160 &&& 128 = 0 <;>
  by_cases b : GetKeyState 161 &&& 128 = 0 <;>
  simp [a, b, updSlot]

/-- The side slots after `SetKeyUp(VK_SHIFT)`: a slot stays down only while its key
is reported held. -/
theorem downAfterKeyUp_shift {n : Nat} (GetKeyState : Nat → Nat) (tbl : Fin n → Bool)
    (hl : VK_LSHIFT < n) (hr : VK_RSHIFT < n) :
    downAfterKeyUp GetKeyState VK_SHIFT tbl ⟨VK_LSHIFT, hl⟩ =
        (tbl ⟨VK_LSHIFT, hl⟩ && held GetKeyState VK_LSHIFT) ∧
      downAfterKeyUp GetKeyState VK_SHIFT tbl ⟨VK_RSHIFT, hr⟩ =
        (tbl ⟨VK_RSHIFT, hr⟩ && held GetKeyState VK_RSHIFT) := by
  unfold downAfterKeyUp
  simp only [VK_SHIFT, VK_LSHIFT, VK_RSHIFT, held] at *
  by_cases a : GetKeyState 160 &&& 128 = 0 <;>
  by_cases b : GetKeyState 161 &&& 128 = 0 <;>
  simp [a, b, updSlot]

/-- C12. Shift aliasing, the platform key state being an oracle (`atPress` when the
generic shift code is pressed, `atRelease` when it is released). For every prior
state, `SetKeyDown(VK_SHIFT)` completes with the generic shift slot down and, if
the oracle reports left shift held, the left-shift slot down too; the following
`SetKeyUp(VK_SHIFT)` completes and the left-shift slot is then down exactly when
it was down before the release and the oracle still reports left shift held (so
it is cleared whenever the oracle reports it up). Likewise for right shift. -/
theorem C12_shift_aliasing (ns : inputns) (atPress atRelease : Nat → Nat) (s : Input ns)
    (hL : VK_RCONTROL < ns.kKeysArrayLength) :
    ∃ s1 s2, SetKeyDown atPress VK_SHIFT s = some s1 ∧
      KeyIsDown (toUCHAR VK_SHIFT) s1 = true ∧
      (held atPress VK_LSHIFT = true → KeyIsDown (toUCHAR VK_LSHIFT) s1 = true) ∧
      (held atPress VK_RSHIFT = true → KeyIsDown (toUCHAR VK_RSHIFT) s1 = true) ∧
      SetKeyUp atRelease VK_SHIFT s1 = some s2 ∧
      KeyIsDown (toUCHAR VK_LSHIFT) s2 =
        (KeyIsDown (toUCHAR VK_LSHIFT) s1 && held atRelease VK_LSHIFT) ∧
      KeyIsDown (toUCHAR VK_RSHIFT) s2 =
        (KeyIsDown (toUCHAR VK_RSHIFT) s1 && held atRelease VK_RSHIFT) := by
  have hs : VK_SHIFT < ns.kKeysArrayLength := by simp [VK_SHIFT, VK_RCONTROL] at *; omega
  have hl : VK_LSHIFT < ns.kKeysArrayLength := by simp [VK_LSHIFT, VK_RCONTROL] at *; omega
  have hr : VK_RSHIFT < ns.kKeysArrayLength := by simp [VK_RSHIFT, VK_RCONTROL] at *; omega
  have hvs : ValidKeyCode ns (toUCHAR VK_SHIFT) = true := valid_of_lt _ hs
  have hvl : ValidKeyCode ns (toUCHAR VK_LSHIFT) = true := valid_of_lt _ hl
  have hvr : ValidKeyCode ns (toUCHAR VK_RSHIFT) = true := valid_of_lt _ hr
  refine ⟨_, _, SetKeyDown_eq atPress VK_SHIFT s hs hL, ?_, ?_, ?_,
    SetKeyUp_eq atRelease VK_SHIFT _ hs hL, ?_, ?_⟩
  · simp only [KeyIsDown, hvs, dite_true]
    exact downAfterKeyDown_self atPress VK_SHIFT s.keys_down_ hs
  · intro h
    simp only [KeyIsDown, hvl, dite_true]
    exact (downAfterKeyDown_shift atPress s.keys_down_ hl hr).1 h
  · intro h
    simp only [KeyIsDown, hvr, dite_true]
    exact (downAfterKeyDown_shift atPress s.keys_down_ hl hr).2 h
  · simp only [KeyIsDown, hvl, dite_true]
    exact (downAfterKeyUp_shift atRelease _ hl hr).1
  · simp only [KeyIsDown, hvr, dite_true]
    exact (downAfterKeyUp_shift atRelease _ hl hr).2

/-- C12 at a concrete input: on a newly constructed object the generic shift code
is pressed with left shift held, and released with no key held any more. -/
theorem C12_shift_aliasing_witness :
    VK_RCONTROL < inputns.standard.kKeysArrayLength ∧
      held onlyLeftShiftHeld VK_LSHIFT = true ∧ held nothingHeld VK_LSHIFT = false ∧
      ∃ s1 s2, SetKeyDown onlyLeftShiftHeld VK_SHIFT (newInput inputns.standard false) = some s1 ∧
        KeyIsDown (toUCHAR VK_SHIFT) s1 = true ∧
        (held onlyLeftShiftHeld VK_LSHIFT = true → KeyIsDown (toUCHAR VK_LSHIFT) s1 = true) ∧
        (held onlyLeftShiftHeld VK_RSHIFT = true → KeyIsDown (toUCHAR VK_RSHIFT) s1 = true) ∧
        SetKeyUp nothingHeld VK_SHIFT s1 = some s2 ∧
        KeyIsDown (toUCHAR VK_LSHIFT) s2 =
          (KeyIsDown (toUCHAR VK_LSHIFT) s1 && held nothingHeld VK_LSHIFT) ∧
        KeyIsDown (toUCHAR VK_RSHIFT) s2 =
          (KeyIsDown (toUCHAR VK_RSHIFT) s1 && held nothingHeld VK_RSHIFT) :=
  ⟨by decide, by decide, by decide,
    C12_shift_aliasing inputns.standard onlyLeftShiftHeld nothingHeld
      (newInput inputns.standard false) (by decide)⟩

/-! ## C13: clearing everything -/

/-- C13. `ClearAll()` clears every category, the mask `kKeysMouseText` having a
bit in common with each of the four category constants: for every prior state,
after `ClearAll()` the queries `KeyIsDown(k)` and `KeyWasPressed(k)` are false for
every `k`, the mouse position and raw delta are 0 and the text is empty; the
state is the prior one with each of the four categories cleared. -/
theorem C13_ClearAll_clears_every_category (ns : inputns) (s : Input ns)
    (hD : (toUCHAR ns.kKeysMouseText).val &&& ns.kKeysDown ≠ 0)
    (hP : (toUCHAR ns.kKeysMouseText).val &&& ns.kKeysPressed ≠ 0)
    (hM : (toUCHAR ns.kKeysMouseText).val &&& ns.kMouse ≠ 0)
    (hT : (toUCHAR ns.kKeysMouseText).val &&& ns.kTextIn ≠ 0) :
    (∀ k : UCHAR, KeyIsDown k (ClearAll s) = false) ∧
      (∀ k : UCHAR, KeyWasPressed k (ClearAll s) = false) ∧
      GetMouseX (ClearAll s) = 0 ∧ GetMouseY (ClearAll s) = 0 ∧
      GetMouseRawX (ClearAll s) = 0 ∧ GetMouseRawY (ClearAll s) = 0 ∧
      GetTextIN (ClearAll s) = [] ∧
      ClearAll s =
        { s with
          keys_down_ := fun _ => false, keys_pressed_ := fun _ => false,
          mouse_x_ := 0, mouse_y_ := 0, mouse_raw_x_ := 0, mouse_raw_y_ := 0,
          text_in_ := [] } := by
  have e : ClearAll s =
      { s with
        keys_down_ := fun _ => false, keys_pressed_ := fun _ => false,
        mouse_x_ := 0, mouse_y_ := 0, mouse_raw_x_ := 0, mouse_raw_y_ := 0,
        text_in_ := [] } := by
    simp only [ClearAll, ClearBuffer, ClearTextIn, hD, hP, hM, hT, ne_eq, not_false_eq_true,
      if_true]
  refine ⟨?_, ?_, ?_, ?_, ?_, ?_, ?_, e⟩
  · intro k
    simp [e, KeyIsDown]
  · intro k
    simp [e, KeyWasPressed]
  all_goals rw [e]; rfl

/-- C13 at a concrete input: the constants as modelled, on a state in which every
category holds something. -/
theorem C13_ClearAll_clears_every_category_witness :
    (toUCHAR inputns.standard.kKeysMouseText).val &&& inputns.standard.kKeysDown ≠ 0 ∧
      (toUCHAR inputns.standard.kKeysMouseText).val &&& inputns.standard.kKeysPressed ≠ 0 ∧
      (toUCHAR inputns.standard.kKeysMouseText).val &&& inputns.standard.kMouse ≠ 0 ∧
      (toUCHAR inputns.standard.kKeysMouseText).val &&& inputns.standard.kTextIn ≠ 0 ∧
      KeyIsDown 65 busyState = true ∧ GetTextIN busyState = [97, 98] ∧
      (∀ k : UCHAR, KeyIsDown k (ClearAll busyState) = false) ∧
      (∀ k : UCHAR, KeyWasPressed k (ClearAll busyState) = false) ∧
      GetMouseX (ClearAll busyState) = 0 ∧ GetMouseY (ClearAll busyState) = 0 ∧
      GetMouseRawX (ClearAll busyState) = 0 ∧ GetMouseRawY (ClearAll busyState) = 0 ∧
      GetTextIN (ClearAll busyState) = [] :=
  have h := C13_ClearAll_clears_every_category inputns.standard busyState
    (by decide) (by decide) (by decide) (by decide)
  ⟨by decide, by decide, by decide, by decide, by decide, by decide,
    h.1, h.2.1, h.2.2.1, h.2.2.2.1, h.2.2.2.2.1, h.2.2.2.2.2.1, h.2.2.2.2.2.2.1⟩

/-! ## C14, C15: the queries -/

/-- C14. `AnyKeyWasPressed()` returns true if and only if at least one slot of the
pressed table is true, that is (the table being no longer than the range of a
`UCHAR` code) if and only if there is a valid key code `k` with
`KeyWasPressed(k)` true. The query is a function of the state and returns only
its answer. -/
theorem C14_AnyKeyWasPressed_iff (ns : inputns) (s : Input ns)
    (hL : ns.kKeysArrayLength ≤ 256) :
    (AnyKeyWasPressed s = true ↔ ∃ j, s.keys_pressed_ j = true) ∧
      (AnyKeyWasPressed s = true ↔
        ∃ k : UCHAR, ValidKeyCode ns k = true ∧ KeyWasPressed k s = true) := by
  have h1 : AnyKeyWasPressed s = true ↔ ∃ j, s.keys_pressed_ j = true := by
    simp [AnyKeyWasPressed, List.any_eq_true]
  refine ⟨h1, h1.trans ⟨?_, ?_⟩⟩
  · rintro ⟨j, hj⟩
    have hv : ValidKeyCode ns ⟨j.val, Nat.lt_of_lt_of_le j.isLt hL⟩ = true :=
      (ValidKeyCode_iff ns _).mpr j.isLt
    refine ⟨⟨j.val, Nat.lt_of_lt_of_le j.isLt hL⟩, hv, ?_⟩
    simp only [KeyWasPressed, hv, dite_true]
    exact hj
  · rintro ⟨k, hv, hk⟩
    simp only [KeyWasPressed, hv, dite_true] at hk
    exact ⟨_, hk⟩

/-- C14 at a concrete input: after the key `A` was pressed the query is true, and
slot 65 is the pressed one. -/
theorem C14_AnyKeyWasPressed_iff_witness :
    inputns.standard.kKeysArrayLength ≤ 256 ∧
      AnyKeyWasPressed afterKeyA = true ∧ KeyWasPressed 65 afterKeyA = true ∧
      AnyKeyWasPressed (newInput inputns.standard false) = false ∧
      ((AnyKeyWasPressed afterKeyA = true ↔ ∃ j, afterKeyA.keys_pressed_ j = true) ∧
        (AnyKeyWasPressed afterKeyA = true ↔
          ∃ k : UCHAR, ValidKeyCode inputns.standard k = true ∧ KeyWasPressed k afterKeyA = true)) :=
  ⟨by decide,
    (C14_AnyKeyWasPressed_iff inputns.standard afterKeyA (by decide)).2.mpr
      ⟨65, by decide, by decide⟩,
    by decide, by simp [AnyKeyWasPressed, newInput],
    C14_AnyKeyWasPressed_iff inputns.standard afterKeyA (by decide)⟩

/-- C15. `KeyIsDown(c)` and `KeyWasPressed(c)` are bounds-checked reads: for every
code `c` and state, if `c` is not less than the table length the query returns
false, otherwise it returns exactly `keys_down_[c]` (respectively
`keys_pressed_[c]`). Both are total functions of the state that return only
their answer. -/
theorem C15_queries_are_bounds_checked (ns : inputns) (c : UCHAR) (s : Input ns) :
    (¬ c.val < ns.kKeysArrayLength → KeyIsDown c s = false ∧ KeyWasPressed c s = false) ∧
      (∀ h : c.val < ns.kKeysArrayLength,
        KeyIsDown c s = s.keys_down_ ⟨c.val, h⟩ ∧
          KeyWasPressed c s = s.keys_pressed_ ⟨c.val, h⟩) := by
  constructor
  · intro h
    have hv : ¬ ValidKeyCode ns c = true := fun e => h ((ValidKeyCode_iff ns c).mp e)
    simp [KeyIsDown, KeyWasPressed, hv]
  · intro h
    have hv : ValidKeyCode ns c = true := (ValidKeyCode_iff ns c).mpr h
    simp [KeyIsDown, KeyWasPressed, hv]

/-- C15 at concrete inputs: code 250 against a table of 200 slots is answered
false; code 65 against the table of 256 slots is answered from slot 65. -/
theorem C15_queries_are_bounds_checked_witness :
    ¬ (250 : UCHAR).val < inputns.shortTable.kKeysArrayLength ∧
      (KeyIsDown 250 (newInput inputns.shortTable false) = false ∧
        KeyWasPressed 250 (newInput inputns.shortTable false) = false) ∧
      KeyIsDown 65 afterKeyA = true ∧
      (∀ h : (65 : UCHAR).val < inputns.standard.kKeysArrayLength,
        KeyIsDown 65 afterKeyA = afterKeyA.keys_down_ ⟨(65 : UCHAR).val, h⟩ ∧
          KeyWasPressed 65 afterKeyA = afterKeyA.keys_pressed_ ⟨(65 : UCHAR).val, h⟩) :=
  ⟨by decide,
    (C15_queries_are_bounds_checked inputns.shortTable 250 (newInput inputns.shortTable false)).1
      (by decide),
    by decide,
    (C15_queries_are_bounds_checked inputns.standard 65 afterKeyA).2⟩

/-! ## C16, C17: the change flag and the level state across operations -/

/-- Whenever `SetKeyDown` completes on a state whose change flag is set, the flag
is set afterwards. -/
theorem SetKeyDown_state_change (GetKeyState : Nat → Nat) (c : Nat) (s s' : Input ns)
    (hL : VK_RCONTROL < ns.kKeysArrayLength) (hflag : s.state_change_ = true)
    (h : SetKeyDown GetKeyState c s = some s') : s'.state_change_ = true := by
  by_cases hc : c < ns.kKeysArrayLength
  · rw [SetKeyDown_eq GetKeyState c s hc hL] at h
    cases h
    rfl
  · cases hv : ValidKeyCode ns (toUCHAR c)
    · rw [SetKeyDown_of_invalid GetKeyState c s hv] at h
      cases h
      exact hflag
    · rw [SetKeyDown_fault GetKeyState c s hv hc] at h
      cases h

/-- Whenever `SetKeyUp` completes on a state whose change flag is set, the flag is
set afterwards. -/
theorem SetKeyUp_state_change (GetKeyState : Nat → Nat) (c : Nat) (s s' : Input ns)
    (hL : VK_RCONTROL < ns.kKeysArrayLength) (hflag : s.state_change_ = true)
    (h : SetKeyUp GetKeyState c s = some s') : s'.state_change_ = true := by
  by_cases hc : c < ns.kKeysArrayLength
  · rw [SetKeyUp_eq GetKeyState c s hc hL] at h
    cases h
    rfl
  · cases hv : ValidKeyCode ns (toUCHAR c)
    · rw [SetKeyUp_of_invalid GetKeyState c s hv] at h
      cases h
      exact hflag
    · rw [SetKeyUp_fault GetKeyState c s hv hc] at h
      cases h

/-- C17. Level state survives the frame boundary, the pressed-category constant
having no bit in common with the other three category constants: for every state
and key code `k`, `KeyIsDown(k)` after `EndFrame()` equals `KeyIsDown(k)` before,
and the mouse position, raw delta, mouse button flags, accumulated text, last
character and new-line flag are unchanged by `EndFrame`. -/
theorem C17_EndFrame_keeps_level_state (ns : inputns) (s : Input ns)
    (hD : (toUCHAR ns.kKeysPressed).val &&& ns.kKeysDown = 0)
    (hM : (toUCHAR ns.kKeysPressed).val &&& ns.kMouse = 0)
    (hT : (toUCHAR ns.kKeysPressed).val &&& ns.kTextIn = 0) :
    (∀ k : UCHAR, KeyIsDown k (EndFrame s) = KeyIsDown k s) ∧
      (GetMouseX (EndFrame s) = GetMouseX s ∧ GetMouseY (EndFrame s) = GetMouseY s ∧
        GetMouseRawX (EndFrame s) = GetMouseRawX s ∧
        GetMouseRawY (EndFrame s) = GetMouseRawY s) ∧
      (GetMouseLeftButton (EndFrame s) = GetMouseLeftButton s ∧
        GetMouseMiddleButton (EndFrame s) = GetMouseMiddleButton s ∧
        GetMouseRightButton (EndFrame s) = GetMouseRightButton s ∧
        GetMouseX1Button (EndFrame s) = GetMouseX1Button s ∧
        GetMouseX2Button (EndFrame s) = GetMouseX2Button s) ∧
      GetTextIN (EndFrame s) = GetTextIN s ∧
      GetCharIn (EndFrame s) = GetCharIn s ∧
      (EndFrame s).new_line_ = s.new_line_ := by
  have hd : (EndFrame s).keys_down_ = s.keys_down_ := by
    show (ClearBuffer (toUCHAR ns.kKeysPressed) s).keys_down_ = _
    rw [ClearBuffer_keys_down]
    simp [hD]
  have hm := ClearBuffer_mouse (toUCHAR ns.kKeysPressed) s
  simp only [hM, ne_eq, not_true_eq_false, if_false, Prod.mk.injEq] at hm
  have ht : (EndFrame s).text_in_ = s.text_in_ := by
    show (ClearBuffer (toUCHAR ns.kKeysPressed) s).text_in_ = _
    rw [ClearBuffer_text_in]
    simp [hT]
  obtain ⟨r1, r2, r3, r4, r5, _, r7, r8, _⟩ := ClearBuffer_rest (toUCHAR ns.kKeysPressed) s
  refine ⟨?_, ⟨hm.1, hm.2.1, hm.2.2.1, hm.2.2.2⟩, ⟨r1, r2, r3, r4, r5⟩, ht, r7, r8⟩
  intro k
  simp only [KeyIsDown, hd]

/-- C17 at a concrete input: the constants as modelled, and a state in which the
key `A` is down, the mouse is at (3, 5) and the text is `"ab"`. -/
theorem C17_EndFrame_keeps_level_state_witness :
    (toUCHAR inputns.standard.kKeysPressed).val &&& inputns.standard.kKeysDown = 0 ∧
      (toUCHAR inputns.standard.kKeysPressed).val &&& inputns.standard.kMouse = 0 ∧
      (toUCHAR inputns.standard.kKeysPressed).val &&& inputns.standard.kTextIn = 0 ∧
      KeyIsDown 65 busyState = true ∧
      (∀ k : UCHAR, KeyIsDown k (EndFrame busyState) = KeyIsDown k busyState) ∧
      GetTextIN (EndFrame busyState) = GetTextIN busyState :=
  have h := C17_EndFrame_keeps_level_state inputns.standard busyState
    (by decide) (by decide) (by decide)
  ⟨by decide, by decide, by decide, by decide, h.1, h.2.2.2.1⟩

/-! ## C18: consuming one key -/

/-- C18. `SetKeyPressedFalse(k)` consumes exactly one key: for every state and
valid `k`, afterwards `KeyWasPressed(k)` is false, every other slot of the pressed
table is unchanged, and every member other than the pressed table (down table,
change flag, mouse state, text state) is unchanged; for an invalid `k` the whole
state is unchanged. -/
theorem C18_SetKeyPressedFalse (ns : inputns) (k : UCHAR) (s : Input ns) :
    (ValidKeyCode ns k = true →
        KeyWasPressed k (SetKeyPressedFalse k s) = false ∧
          (∀ j : Fin ns.kKeysArrayLength, j.val ≠ k.val →
            (SetKeyPressedFalse k s).keys_pressed_ j = s.keys_pressed_ j) ∧
          (∀ c : UCHAR, KeyIsDown c (SetKeyPressedFalse k s) = KeyIsDown c s) ∧
          SetKeyPressedFalse k s =
            { s with keys_pressed_ := (SetKeyPressedFalse k s).keys_pressed_ }) ∧
      (ValidKeyCode ns k = false → SetKeyPressedFalse k s = s) := by
  constructor
  · intro hv
    have e : SetKeyPressedFalse k s =
        { s with keys_pressed_ := updSlot s.keys_pressed_ k.val false } := by
      simp [SetKeyPressedFalse, hv]
    refine ⟨?_, ?_, ?_, ?_⟩
    · simp [KeyWasPressed, hv, e, updSlot]
    · intro j hj
      rw [e]
      exact updSlot_other s.keys_pressed_ k.val false j hj
    · intro c
      rw [e]
      rfl
    · rw [e]
  · intro hv
    simp [SetKeyPressedFalse, hv]

/-- C18 at concrete inputs: consuming the key `A` after it was pressed (it stays
down), and an invalid code against a table of 200 slots. -/
theorem C18_SetKeyPressedFalse_witness :
    ValidKeyCode inputns.standard 65 = true ∧
      KeyWasPressed 65 afterKeyA = true ∧
      KeyWasPressed 65 (SetKeyPressedFalse 65 afterKeyA) = false ∧
      KeyIsDown 65 (SetKeyPressedFalse 65 afterKeyA) = true ∧
      ValidKeyCode inputns.shortTable 250 = false ∧
      SetKeyPressedFalse 250 (newInput inputns.shortTable false)
        = newInput inputns.shortTable false :=
  ⟨by decide, by decide,
    ((C18_SetKeyPressedFalse inputns.standard 65 afterKeyA).1 (by decide)).1,
    by decide, by decide,
    (C18_SetKeyPressedFalse inputns.shortTable 250 (newInput inputns.shortTable false)).2
      (by decide)⟩

/-! ## C19: backspace across a line boundary -/

/-- The new-line flag after `SetKeyIn(c)`: set exactly for a carriage return. -/
theorem SetKeyIn_new_line (c : Nat) (s : Input ns) :
    (SetKeyIn c s).new_line_ = decide (toUCHAR c = CARRIAGE_RETURN) := by
  unfold SetKeyIn
  dsimp only
  cases hn : s.new_line_ <;> split_ifs <;> simp_all

/-- C19. Backspace across a line boundary discards the whole completed line: for
every state, after `SetKeyIn` of a carriage return followed by `SetKeyIn` of a
backspace the accumulated text is empty and the new-line flag is false; and
after every `SetKeyIn(c)` the new-line flag is true exactly when `c` is the
carriage-return character. -/
theorem C19_backspace_across_line (ns : inputns) (s : Input ns) (cr bs : Nat)
    (hcr : toUCHAR cr = CARRIAGE_RETURN) (hbs : toUCHAR bs = BACKSPACE) :
    GetTextIN (SetKeyIn bs (SetKeyIn cr s)) = [] ∧
      (SetKeyIn bs (SetKeyIn cr s)).new_line_ = false ∧
      (∀ (c : Nat) (t : Input ns),
        (SetKeyIn c t).new_line_ = true ↔ toUCHAR c = CARRIAGE_RETURN) := by
  have ne : BACKSPACE ≠ CARRIAGE_RETURN := by decide
  have hnl : (SetKeyIn cr s).new_line_ = true := by
    rw [SetKeyIn_new_line]
    simp [hcr]
  refine ⟨?_, ?_, ?_⟩
  · generalize SetKeyIn cr s = t at hnl
    simp [SetKeyIn, GetTextIN, hbs, hnl, ne]
  · rw [SetKeyIn_new_line]
    simp [hbs, ne]
  · intro c t
    rw [SetKeyIn_new_line]
    simp

/-- C19 at a concrete input: `"hi"`, carriage return, backspace on a newly
constructed object. Before the backspace the text is the completed line with its
carriage return; after it the text is empty. -/
theorem C19_backspace_across_line_witness :
    toUCHAR 13 = CARRIAGE_RETURN ∧ toUCHAR 8 = BACKSPACE ∧
      GetTextIN (SetKeyIn 13 (typeText [104, 105] (newInput inputns.standard false)))
        = [104, 105, 13] ∧
      GetTextIN (SetKeyIn 8 (SetKeyIn 13 (typeText [104, 105] (newInput inputns.standard false))))
        = [] ∧
      (SetKeyIn 8 (SetKeyIn 13 (typeText [104, 105] (newInput inputns.standard false)))).new_line_
        = false :=
  have h := C19_backspace_across_line inputns.standard
    (typeText [104, 105] (newInput inputns.standard false)) 13 8 (by decide) (by decide)
  ⟨by decide, by decide, by decide, h.1, h.2.1⟩

end DirectXFramework
